import Mathlib

/-!
Shallow embedding of the WealthWise multi-tenant authorization core
(wealthUser/models.py, wealthWise/middleware.py, wealthWise/permissions.py,
netWorth/models.py, netWorth/serializers.py, netWorth/validators.py,
netWorth/views.py), together with theorems settling the frozen claims
about tenant isolation, the permission matrix, context lifecycle and
input validation.

Conventions:
* Django model rows become Lean structures; the database is a `List Item`.
* Thread-local `GroupContext` state becomes an explicit `Ctx` value that
  the middleware/request pipeline threads through.
* Python `Decimal` values appearing in the validators are embedded as a
  mantissa/exponent pair `Dec` (the code only ever compares them to zero
  and stores them verbatim, so this captures everything the code does).
* Fallible validation returns `Except`.
-/

namespace WealthWise

/-- Tenant identifier: stands for a row of `wealthUser.models.Group`
(only identity matters to the authorization core). -/
abbrev GroupId := Nat

/-- Embeds `wealthUser.models.CustomUser`: nullable group foreign key,
role `CharField` (strings `"admin"`, `"editor"`, `"viewer"` are the
declared choices, but the column can hold any string), and the
system-wide `is_admin` boolean. -/
structure CustomUser where
  group : Option GroupId
  role : String
  is_admin : Bool
deriving DecidableEq, Repr

/-- The `role_permissions` dict literal inside
`CustomUser.has_group_permission`, with the Python
`dict.get(role, [])` default for unmapped roles. -/
def rolePermissions (role : String) : List String :=
  if role = "admin" then ["read", "create", "update", "delete", "manage_users"]
  else if role = "editor" then ["read", "create", "update"]
  else if role = "viewer" then ["read"]
  else []

/-- Embeds `CustomUser.has_group_permission` (wealthUser/models.py):
system admins pass unconditionally, groupless users fail
unconditionally, otherwise membership in the role's permission list. -/
def CustomUser.has_group_permission (u : CustomUser) (permission : String) : Bool :=
  if u.is_admin then true
  else match u.group with
    | none => false
    | some _ => (rolePermissions u.role).contains permission

/-- Python `Decimal` as used by this code base: an integer mantissa and
a decimal exponent, denoting `mant / 10 ^ exp`. The code only compares
decimals against zero and stores them, so zero-sign tests below are the
only comparisons needed. -/
structure Dec where
  mant : Int
  exp : Nat
deriving DecidableEq, Repr

/-- `d < 0` on a `Dec` (Python `value < 0`). -/
def Dec.ltZero (d : Dec) : Bool := d.mant < 0

/-- `d <= 0` on a `Dec` (Python `value <= 0`). -/
def Dec.leZero (d : Dec) : Bool := d.mant ≤ 0

/-- Split a character list at a single decimal point; fails when more
than one `'.'` occurs (mirrors `decimal.Decimal`'s rejection of inputs
like `"1..2"`). -/
def splitOnDot : List Char → Option (List Char × List Char)
  | [] => some ([], [])
  | '.' :: rest => if rest.contains '.' then none else some ([], rest)
  | c :: rest => (splitOnDot rest).map (fun ip => (c :: ip.1, ip.2))

/-- Numeric value of a digit string. -/
def digitsToNat (cs : List Char) : Nat :=
  cs.foldl (fun a c => a * 10 + (c.toNat - 48)) 0

/-- Embeds `Decimal(str(x))` on the plain sign/digits/point inputs this
API deals in: optional sign, digit run, optional fractional digit run;
anything else raises `InvalidOperation` (here: `none`). -/
def parseDecimal (s : String) : Option Dec :=
  let cs := s.toList
  let signed : Bool × List Char :=
    match cs with
    | '-' :: r => (true, r)
    | '+' :: r => (false, r)
    | r => (false, r)
  match splitOnDot signed.2 with
  | none => none
  | some (ip, fp) =>
    if ip.isEmpty && fp.isEmpty then none
    else if ip.all Char.isDigit && fp.all Char.isDigit then
      let m : Int := Int.ofNat (digitsToNat (ip ++ fp))
      some ⟨if signed.1 then -m else m, fp.length⟩
    else none

/-- Embeds a `netWorth.models.NetWorthItem` row: owning group foreign
key, name, decimal value, `item_type` (`"ASSET"` / `"LIABILITY"`),
nullable `asset_category`, nullable description, creation timestamp
(used only for `-created_at` ordering). -/
structure Item where
  id : Nat
  group : GroupId
  name : String
  value : Dec
  item_type : String
  asset_category : Option String
  description : Option String
  created_at : Nat
deriving DecidableEq, Repr

/-- The database of `NetWorthItem` rows. -/
abbrev DB := List Item

/-- The `ASSET_CATEGORIES` choice keys of `NetWorthItem`. -/
def assetCategories : List String :=
  ["SAVINGS", "INVESTMENTS", "PROPERTY", "OTHER_ASSETS"]

/-- Embeds `NetWorthItem.clean` (netWorth/models.py): liabilities must
not carry an asset category, assets must carry one. -/
def NetWorthItem.clean (it : Item) : Except String Unit :=
  if it.item_type = "LIABILITY" ∧ it.asset_category.isSome then
    .error "Liabilities cannot have an asset category."
  else if it.item_type = "ASSET" ∧ it.asset_category.isNone then
    .error "Assets must have an asset category."
  else .ok ()

/-- The thread-local `GroupContext` state (wealthWise/middleware.py):
current user and current group, both absent when the corresponding
attribute is unset on `_thread_locals`. -/
structure Ctx where
  current_user : Option CustomUser
  current_group : Option GroupId
deriving DecidableEq, Repr

/-- The context in which neither thread-local attribute is set. -/
def Ctx.empty : Ctx := ⟨none, none⟩

/-- Embeds `GroupContext.set_current_user`: stores the user and derives
`current_group = user.group if user else None`. -/
def GroupContext.set_current_user (ctx : Ctx) (user : Option CustomUser) : Ctx :=
  let _ := ctx
  ⟨user, user.bind (fun u => u.group)⟩

/-- Embeds `GroupContext.get_current_user` (`getattr` default `None`). -/
def GroupContext.get_current_user (ctx : Ctx) : Option CustomUser :=
  ctx.current_user

/-- Embeds `GroupContext.get_current_group` (`getattr` default `None`). -/
def GroupContext.get_current_group (ctx : Ctx) : Option GroupId :=
  ctx.current_group

/-- Embeds `GroupContext.has_permission`: false with no current user,
otherwise delegates to `CustomUser.has_group_permission`. -/
def GroupContext.has_permission (ctx : Ctx) (permission : String) : Bool :=
  match GroupContext.get_current_user ctx with
  | none => false
  | some u => u.has_group_permission permission

/-- Embeds `GroupContext.clear`: deletes both thread-local attributes,
leaving the empty context whatever was stored before. -/
def GroupContext.clear (ctx : Ctx) : Ctx :=
  let _ := ctx
  Ctx.empty

/-- Embeds `GroupFilteredManager.get_queryset`: group filter applied
only when a current group exists and the model has a `group` field
(`hasGroupField` stands for `hasattr(self.model, 'group')`). -/
def GroupFilteredManager.get_queryset (current_group : Option GroupId)
    (hasGroupField : Bool) (db : DB) : DB :=
  match current_group with
  | some g => if hasGroupField then db.filter (fun i => i.group == g) else db
  | none => db

/-- Embeds `GroupFilteredManager.create`'s group stamping: the `group`
kwarg is filled from the context only when a current group exists, the
model has a `group` field and the caller supplied no `group` kwarg. -/
def GroupFilteredManager.create_group_kwarg (current_group : Option GroupId)
    (hasGroupField : Bool) (kwargs_group : Option GroupId) : Option GroupId :=
  match kwargs_group with
  | some g => some g
  | none =>
    match current_group with
    | some g => if hasGroupField then some g else none
    | none => none

/-- The queryset every `NetWorthItem.objects` access goes through once
`apply_group_filtering_to_model` (wealthWise/middleware.py) has replaced
the default manager — `NetWorthItem` does have a `group` field. -/
def NetWorthItem.objects (ctx : Ctx) (db : DB) : DB :=
  GroupFilteredManager.get_queryset (GroupContext.get_current_group ctx) true db

/-- Embeds `GroupFilteringMiddleware.process_request`: clear any
existing context, then set the user context for authenticated
(non-anonymous) request users. -/
def GroupFilteringMiddleware.process_request (ctx : Ctx)
    (requestUser : Option CustomUser) : Ctx :=
  let c := GroupContext.clear ctx
  match requestUser with
  | some u => GroupContext.set_current_user c (some u)
  | none => c

/-- Embeds `GroupFilteringMiddleware.process_response`: unconditional
context clear on the response path. -/
def GroupFilteringMiddleware.process_response (ctx : Ctx) : Ctx :=
  GroupContext.clear ctx

/-- Embeds `GroupFilteringMiddleware.process_exception`: unconditional
context clear when the view raised. -/
def GroupFilteringMiddleware.process_exception (ctx : Ctx) : Ctx :=
  GroupContext.clear ctx

/-- One full request lifecycle as the middleware sees it: context state
after `process_request`, the view body (which never mutates the
context), then `process_exception` (when the view raised) and
`process_response`. -/
def runRequestLifecycle (ctx : Ctx) (principal : Option CustomUser)
    (viewRaised : Bool) : Ctx :=
  let during := GroupFilteringMiddleware.process_request ctx principal
  if viewRaised then
    GroupFilteringMiddleware.process_response
      (GroupFilteringMiddleware.process_exception during)
  else
    GroupFilteringMiddleware.process_response during

/-- The JSON body of a write request as the serializers see it: every
key the API reader could supply. `group` and `item_type` are carried to
state payload-injection properties — neither is a writable field of
`AssetSerializer` / `LiabilitySerializer`. A key that is absent is
`none`. -/
structure Payload where
  name : Option String
  value : Option String
  asset_category : Option String
  description : Option String
  item_type : Option String
  group : Option GroupId
deriving DecidableEq, Repr

/-- Serializer validation failures (DRF collects them per field; only
which failure fired matters to the API contract). -/
inductive SErr
  | nameRequired
  | nameTooLong
  | valueRequired
  | valueInvalid
  | valueMaxDigits
  | valueMaxDecimalPlaces
  | valueMinValue
  | valueNotPositive
  | categoryInvalidChoice
  | categoryRequired
  | categoryInvalid
  | categoryNotAllowed
deriving DecidableEq, Repr

/-- `validated_data` after `to_internal_value` plus the serializer
`validate` hooks. `asset_category = none` means the key is absent from
`validated_data`; `some c` means the key is present with value `c`
(which is itself `none` when `LiabilitySerializer.validate` forced it
to `None`). -/
structure VData where
  name : Option String
  value : Option Dec
  asset_category : Option (Option String)
  description : Option String
  item_type : String
deriving DecidableEq, Repr

/-- Significant digits of a `Dec` mantissa (DRF `max_digits` check). -/
def decDigits (d : Dec) : Nat := (Nat.toDigits 10 d.mant.natAbs).length

/-- Embeds `NetWorthItemSerializer.validate_value`
(netWorth/serializers.py lines 27-31): `value <= 0` raises
"Value must be positive.". -/
def NetWorthItemSerializer.validate_value (d : Dec) : Except SErr Dec :=
  if d.leZero then .error .valueNotPositive else .ok d

/-- DRF `CharField` handling of the model `name` field: required unless
the serializer runs with `partial=True` (`allowMissing`), max length
255 from the model field. -/
def validateNameField (allowMissing : Bool) (raw : Option String) :
    Except SErr (Option String) :=
  match raw with
  | none => if allowMissing then .ok none else .error .nameRequired
  | some s => if 255 < s.length then .error .nameTooLong else .ok (some s)

/-- DRF `DecimalField(max_digits=15, decimal_places=2)` handling of the
model `value` field, including the model's `MinValueValidator(0.00)`
and the serializer's `validate_value` hook, in DRF's order. -/
def validateValueField (allowMissing : Bool) (raw : Option String) :
    Except SErr (Option Dec) :=
  match raw with
  | none => if allowMissing then .ok none else .error .valueRequired
  | some s =>
    match parseDecimal s with
    | none => .error .valueInvalid
    | some d =>
      if 15 < decDigits d then .error .valueMaxDigits
      else if 2 < d.exp then .error .valueMaxDecimalPlaces
      else if d.ltZero then .error .valueMinValue
      else
        match NetWorthItemSerializer.validate_value d with
        | .error e => .error e
        | .ok d2 => .ok (some d2)

/-- DRF `ChoiceField` generated for `asset_category` (optional since the
model field is `null=True, blank=True`); a supplied value outside
`ASSET_CATEGORIES` is not a valid choice. -/
def validateCategoryField (raw : Option String) :
    Except SErr (Option (Option String)) :=
  match raw with
  | none => .ok none
  | some c =>
    if assetCategories.contains c then .ok (some (some c))
    else .error .categoryInvalidChoice

/-- Embeds `NetWorthItemSerializer.validate` (cross-field validation,
netWorth/serializers.py lines 33-59): assets need a valid category,
liabilities must not have one. `data.get('asset_category')` is
`vd.asset_category.getD none`. -/
def NetWorthItemSerializer.validate (vd : VData) : Except SErr VData :=
  let cat := vd.asset_category.getD none
  if vd.item_type = "ASSET" then
    match cat with
    | none => .error .categoryRequired
    | some c =>
      if assetCategories.contains c then .ok vd else .error .categoryInvalid
  else if vd.item_type = "LIABILITY" then
    match cat with
    | some _ => .error .categoryNotAllowed
    | none => .ok vd
  else .ok vd

/-- `AssetSerializer.run_validation`: field validation over the declared
writable fields (`name`, `value`, `asset_category`, `description` — the
payload's `group` and `item_type` keys are not declared fields and are
never read), then `AssetSerializer.validate`, which injects
`item_type = 'ASSET'` and delegates to the base `validate`.
`allowMissing` is DRF's partial-update flag. -/
def AssetSerializer.run_validation (allowMissing : Bool) (p : Payload) :
    Except SErr VData := do
  let n ← validateNameField allowMissing p.name
  let v ← validateValueField allowMissing p.value
  let c ← validateCategoryField p.asset_category
  NetWorthItemSerializer.validate
    { name := n, value := v, asset_category := c,
      description := p.description, item_type := "ASSET" }

/-- `LiabilitySerializer.run_validation`: declared writable fields are
only `name`, `value`, `description` — a payload `asset_category` key is
not a declared field and is silently dropped; `validate` then forces
`item_type = 'LIABILITY'` and `asset_category = None` before the base
`validate`. -/
def LiabilitySerializer.run_validation (allowMissing : Bool) (p : Payload) :
    Except SErr VData := do
  let n ← validateNameField allowMissing p.name
  let v ← validateValueField allowMissing p.value
  NetWorthItemSerializer.validate
    { name := n, value := v, asset_category := some none,
      description := p.description, item_type := "LIABILITY" }

/-- Outcome of one API call, tagged with the HTTP status it maps to.
`permissionDenied` carries the required permission named in the 403
body; `groupRequired` carries the literal error string of the 403 body;
`serverError` stands for an exception escaping the view (a model
`full_clean` failure during save). -/
inductive ApiResult (α : Type)
  | unauthenticated
  | permissionDenied (required_permission : String)
  | groupRequired (error : String)
  | badRequest (e : SErr)
  | notFound
  | serverError
  | ok (statusCode : Nat) (body : α)
deriving DecidableEq, Repr

/-- HTTP status of an `ApiResult`. -/
def ApiResult.status {α : Type} : ApiResult α → Nat
  | .unauthenticated => 403
  | .permissionDenied _ => 403
  | .groupRequired _ => 403
  | .badRequest _ => 400
  | .notFound => 404
  | .serverError => 500
  | .ok s _ => s

/-- The 403 detail string raised by the overridden `check_permissions`
of the DRF views. -/
def permissionDeniedMessage (perm : String) : String :=
  "Permission denied. Required permission: " ++ perm

/-- Insert one item into a list already sorted by descending
`created_at`. -/
def insertDesc (x : Item) : List Item → List Item
  | [] => [x]
  | y :: ys =>
    if y.created_at ≤ x.created_at then x :: y :: ys else y :: insertDesc x ys

/-- `order_by('-created_at')`: newest first (insertion sort; only the
multiset of rows matters to the claims). -/
def sortByCreatedDesc : List Item → List Item
  | [] => []
  | x :: xs => insertDesc x (sortByCreatedDesc xs)

/-- `Paginator(assets, page_size).get_page(page)`'s object list: the
1-based `page`-th slice of size `pageSize` (Django clamps a page number
below 1 up to the first page). -/
def paginate (page pageSize : Nat) (l : List Item) : List Item :=
  (l.drop ((max page 1 - 1) * pageSize)).take pageSize

/-- Request-context setup shared by every DRF view call: middleware
`process_request` on a fresh worker state. -/
def requestCtx (requestUser : Option CustomUser) : Ctx :=
  GroupFilteringMiddleware.process_request Ctx.empty requestUser

/-- Embeds `AssetsAPIView.get` (netWorth/views.py lines 97-133),
including DRF's `IsAuthenticated` gate and the overridden
`check_permissions` requiring `read`. Returns `paginator.count`
together with the page's rows. -/
def AssetsAPIView.get (requestUser : Option CustomUser) (db : DB)
    (page pageSize : Nat) : ApiResult (Nat × List Item) :=
  match requestUser with
  | none => .unauthenticated
  | some _ =>
    let ctx := requestCtx requestUser
    if ¬ GroupContext.has_permission ctx "read" then .permissionDenied "read"
    else
      match GroupContext.get_current_group ctx with
      | none => .groupRequired "User must be assigned to a group"
      | some _ =>
        let assets := sortByCreatedDesc
          ((NetWorthItem.objects ctx db).filter (fun i => i.item_type == "ASSET"))
        .ok 200 (assets.length, paginate page pageSize assets)

/-- Embeds `LiabilitiesAPIView.get` (netWorth/views.py lines 251-287):
same pipeline as the assets list with `item_type='LIABILITY'`. -/
def LiabilitiesAPIView.get (requestUser : Option CustomUser) (db : DB)
    (page pageSize : Nat) : ApiResult (Nat × List Item) :=
  match requestUser with
  | none => .unauthenticated
  | some _ =>
    let ctx := requestCtx requestUser
    if ¬ GroupContext.has_permission ctx "read" then .permissionDenied "read"
    else
      match GroupContext.get_current_group ctx with
      | none => .groupRequired "User must be assigned to a group"
      | some _ =>
        let liabilities := sortByCreatedDesc
          ((NetWorthItem.objects ctx db).filter (fun i => i.item_type == "LIABILITY"))
        .ok 200 (liabilities.length, paginate page pageSize liabilities)

/-- The row built by `serializer.save(group=current_group)`:
`ModelSerializer.create` forwards `validated_data` plus the view's
`group` kwarg to `GroupFilteredManager.create`, which keeps the
caller-passed group. On a create, `name` and `value` are always present
in `validated_data` (the serializer ran without `partial`). -/
def buildItem (g : GroupId) (vd : VData) (newId ts : Nat) : Item :=
  { id := newId, group := g,
    name := vd.name.getD "", value := vd.value.getD ⟨0, 0⟩,
    item_type := vd.item_type,
    asset_category := vd.asset_category.getD none,
    description := vd.description, created_at := ts }

/-- Embeds `AssetsAPIView.post` (netWorth/views.py lines 135-150):
`create` permission, group-membership check, `AssetSerializer`
validation, then `serializer.save(group=current_group)` (the model's
`full_clean` runs inside `save`). Returns the response and the
resulting database. -/
def AssetsAPIView.post (requestUser : Option CustomUser) (db : DB)
    (p : Payload) (newId ts : Nat) : ApiResult Item × DB :=
  match requestUser with
  | none => (.unauthenticated, db)
  | some _ =>
    let ctx := requestCtx requestUser
    if ¬ GroupContext.has_permission ctx "create" then
      (.permissionDenied "create", db)
    else
      match GroupContext.get_current_group ctx with
      | none => (.groupRequired "User must be assigned to a group", db)
      | some g =>
        match AssetSerializer.run_validation false p with
        | .error e => (.badRequest e, db)
        | .ok vd =>
          let item := buildItem g vd newId ts
          match NetWorthItem.clean item with
          | .error _ => (.serverError, db)
          | .ok _ => (.ok 201 item, db ++ [item])

/-- Embeds `LiabilitiesAPIView.post` (netWorth/views.py lines 289-304). -/
def LiabilitiesAPIView.post (requestUser : Option CustomUser) (db : DB)
    (p : Payload) (newId ts : Nat) : ApiResult Item × DB :=
  match requestUser with
  | none => (.unauthenticated, db)
  | some _ =>
    let ctx := requestCtx requestUser
    if ¬ GroupContext.has_permission ctx "create" then
      (.permissionDenied "create", db)
    else
      match GroupContext.get_current_group ctx with
      | none => (.groupRequired "User must be assigned to a group", db)
      | some g =>
        match LiabilitySerializer.run_validation false p with
        | .error e => (.badRequest e, db)
        | .ok vd =>
          let item := buildItem g vd newId ts
          match NetWorthItem.clean item with
          | .error _ => (.serverError, db)
          | .ok _ => (.ok 201 item, db ++ [item])

/-- Embeds `AssetDetailAPIView.get_object` (netWorth/views.py lines
186-192): `get_object_or_404(NetWorthItem, id=asset_id,
item_type='ASSET')` through the group-filtered default manager. -/
def AssetDetailAPIView.get_object (ctx : Ctx) (db : DB) (asset_id : Nat) :
    Option Item :=
  (NetWorthItem.objects ctx db).find?
    (fun i => i.id == asset_id && i.item_type == "ASSET")

/-- Embeds `LiabilityDetailAPIView.get_object` (netWorth/views.py lines
340-346). -/
def LiabilityDetailAPIView.get_object (ctx : Ctx) (db : DB)
    (liability_id : Nat) : Option Item :=
  (NetWorthItem.objects ctx db).find?
    (fun i => i.id == liability_id && i.item_type == "LIABILITY")

/-- `ModelSerializer.update`: `setattr` on the instance for every key of
`validated_data` (absent keys leave the attribute untouched; the
injected `item_type`, and — for liabilities — the forced
`asset_category = None`, are always present). -/
def ModelSerializer.update_item (a : Item) (vd : VData) : Item :=
  { a with
    name := vd.name.getD a.name,
    value := vd.value.getD a.value,
    item_type := vd.item_type,
    asset_category :=
      match vd.asset_category with
      | some c => c
      | none => a.asset_category,
    description :=
      match vd.description with
      | some d => some d
      | none => a.description }

/-- `instance.save()` after a detail update: `full_clean` (hence
`NetWorthItem.clean`), then the row with the instance's primary key is
rewritten. -/
def saveUpdatedItem (db : DB) (a2 : Item) : DB :=
  db.map (fun i => if i.id == a2.id then a2 else i)

/-- Embeds `AssetDetailAPIView.get` (netWorth/views.py lines 194-198)
with the `read` permission gate of `check_permissions`. The handler has
no explicit group check: scoping comes from `get_object` alone. -/
def AssetDetailAPIView.get (requestUser : Option CustomUser) (db : DB)
    (asset_id : Nat) : ApiResult Item :=
  match requestUser with
  | none => .unauthenticated
  | some _ =>
    let ctx := requestCtx requestUser
    if ¬ GroupContext.has_permission ctx "read" then .permissionDenied "read"
    else
      match AssetDetailAPIView.get_object ctx db asset_id with
      | none => .notFound
      | some a => .ok 200 a

/-- Embeds `AssetDetailAPIView.put` (netWorth/views.py lines 200-209):
`update` permission, `get_object`, `AssetSerializer(asset, data,
partial=True)`, then save. `PATCH` delegates to this function. -/
def AssetDetailAPIView.put (requestUser : Option CustomUser) (db : DB)
    (asset_id : Nat) (p : Payload) : ApiResult Item × DB :=
  match requestUser with
  | none => (.unauthenticated, db)
  | some _ =>
    let ctx := requestCtx requestUser
    if ¬ GroupContext.has_permission ctx "update" then
      (.permissionDenied "update", db)
    else
      match AssetDetailAPIView.get_object ctx db asset_id with
      | none => (.notFound, db)
      | some a =>
        match AssetSerializer.run_validation true p with
        | .error e => (.badRequest e, db)
        | .ok vd =>
          let a2 := ModelSerializer.update_item a vd
          match NetWorthItem.clean a2 with
          | .error _ => (.serverError, db)
          | .ok _ => (.ok 200 a2, saveUpdatedItem db a2)

/-- Embeds `AssetDetailAPIView.delete` (netWorth/views.py lines
215-219): `delete` permission, `get_object`, row deletion by primary
key, 204. -/
def AssetDetailAPIView.delete (requestUser : Option CustomUser) (db : DB)
    (asset_id : Nat) : ApiResult Unit × DB :=
  match requestUser with
  | none => (.unauthenticated, db)
  | some _ =>
    let ctx := requestCtx requestUser
    if ¬ GroupContext.has_permission ctx "delete" then
      (.permissionDenied "delete", db)
    else
      match AssetDetailAPIView.get_object ctx db asset_id with
      | none => (.notFound, db)
      | some a => (.ok 204 (), db.filter (fun i => ¬ i.id == a.id))

/-- Embeds `LiabilityDetailAPIView.get` (netWorth/views.py lines
348-352). -/
def LiabilityDetailAPIView.get (requestUser : Option CustomUser) (db : DB)
    (liability_id : Nat) : ApiResult Item :=
  match requestUser with
  | none => .unauthenticated
  | some _ =>
    let ctx := requestCtx requestUser
    if ¬ GroupContext.has_permission ctx "read" then .permissionDenied "read"
    else
      match LiabilityDetailAPIView.get_object ctx db liability_id with
      | none => .notFound
      | some a => .ok 200 a

/-- Embeds `LiabilityDetailAPIView.put` (netWorth/views.py lines
354-363). -/
def LiabilityDetailAPIView.put (requestUser : Option CustomUser) (db : DB)
    (liability_id : Nat) (p : Payload) : ApiResult Item × DB :=
  match requestUser with
  | none => (.unauthenticated, db)
  | some _ =>
    let ctx := requestCtx requestUser
    if ¬ GroupContext.has_permission ctx "update" then
      (.permissionDenied "update", db)
    else
      match LiabilityDetailAPIView.get_object ctx db liability_id with
      | none => (.notFound, db)
      | some a =>
        match LiabilitySerializer.run_validation true p with
        | .error e => (.badRequest e, db)
        | .ok vd =>
          let a2 := ModelSerializer.update_item a vd
          match NetWorthItem.clean a2 with
          | .error _ => (.serverError, db)
          | .ok _ => (.ok 200 a2, saveUpdatedItem db a2)

/-- Embeds `LiabilityDetailAPIView.delete` (netWorth/views.py lines
369-373). -/
def LiabilityDetailAPIView.delete (requestUser : Option CustomUser) (db : DB)
    (liability_id : Nat) : ApiResult Unit × DB :=
  match requestUser with
  | none => (.unauthenticated, db)
  | some _ =>
    let ctx := requestCtx requestUser
    if ¬ GroupContext.has_permission ctx "delete" then
      (.permissionDenied "delete", db)
    else
      match LiabilityDetailAPIView.get_object ctx db liability_id with
      | none => (.notFound, db)
      | some a => (.ok 204 (), db.filter (fun i => ¬ i.id == a.id))

/-- Embeds `NetWorthSummaryAPIView.get` (netWorth/views.py lines
38-65): `PermissionRequiredMixin.dispatch` checks `read` before
anything else (hence an anonymous caller is also denied there), then
the group check; the body is built from
`NetWorthSummary.get_total_assets` / `get_total_liabilities`, whose
querysets are returned here (the asset rows and liability rows of the
group, both fetched through `NetWorthItem.objects` with an explicit
`group=self.group` filter on top). -/
def NetWorthSummaryAPIView.get (requestUser : Option CustomUser) (db : DB) :
    ApiResult (List Item × List Item) :=
  let ctx := requestCtx requestUser
  if ¬ GroupContext.has_permission ctx "read" then .permissionDenied "read"
  else
    match requestUser with
    | none => .unauthenticated
    | some _ =>
      match GroupContext.get_current_group ctx with
      | none => .groupRequired "User must be assigned to a group"
      | some g =>
        .ok 200
          ((NetWorthItem.objects ctx db).filter
            (fun i => i.group == g && i.item_type == "ASSET"),
           (NetWorthItem.objects ctx db).filter
            (fun i => i.group == g && i.item_type == "LIABILITY"))

/-- Embeds the `require_group_membership` decorator
(wealthWise/permissions.py lines 55-77): with no current group it
short-circuits with status 400 and body error `'Group membership
required'`; otherwise the wrapped view runs. -/
def require_group_membership_gate (ctx : Ctx) : Option (Nat × String) :=
  match GroupContext.get_current_group ctx with
  | none => some (400, "Group membership required")
  | some _ => none

/-- Embeds the legacy `validate_value_format` shared verbatim by
`AssetsValidator`, `LiabilitiesValidator`, `AssetUpdateValidator` and
`LiabilityUpdateValidator` (netWorth/validators.py): a missing `value`
key passes, `Decimal` parse failure appends `'Invalid value format'`,
a negative value appends `'Value must be positive'`, and otherwise the
parsed decimal is stored as `_validated_value`. -/
inductive LegacyValueCheck
  | missingKey
  | stored (d : Dec)
  | negativeValue
  | invalidFormat
deriving DecidableEq, Repr

/-- The legacy value check itself (netWorth/validators.py lines 30-43). -/
def AssetsValidator.validate_value_format (raw : Option String) :
    LegacyValueCheck :=
  match raw with
  | none => .missingKey
  | some s =>
    match parseDecimal s with
    | none => .invalidFormat
    | some d => if d.ltZero then .negativeValue else .stored d

/-- The five permissions of the specification's matrix. -/
inductive Permission
  | read
  | createPerm
  | updatePerm
  | deletePerm
  | manage_users
deriving DecidableEq, Repr

/-- The permission name string the code uses for each matrix entry. -/
def Permission.toName : Permission → String
  | .read => "read"
  | .createPerm => "create"
  | .updatePerm => "update"
  | .deletePerm => "delete"
  | .manage_users => "manage_users"

/-- Spec-side permission matrix, written from the claim's words (system
admin: everything; no group: nothing; Admin: all five; Editor: read,
create, update; Viewer: read only; any unknown role: none), to be
compared against `CustomUser.has_group_permission`. -/
def hasPermissionSpec (u : CustomUser) (p : Permission) : Bool :=
  if u.is_admin then true
  else if u.group.isNone then false
  else if u.role = "admin" then true
  else if u.role = "editor" then
    p = Permission.read ∨ p = Permission.createPerm ∨ p = Permission.updatePerm
  else if u.role = "viewer" then p = Permission.read
  else false

/-! ## Helper lemmas -/

theorem mem_insertDesc {x a : Item} {l : List Item} :
    x ∈ insertDesc a l ↔ x = a ∨ x ∈ l := by
  induction l with
  | nil => simp [insertDesc]
  | cons y ys ih =>
    rw [insertDesc]
    split
    · simp
    · simp only [List.mem_cons, ih]
      tauto

theorem mem_sortByCreatedDesc {x : Item} {l : List Item} :
    x ∈ sortByCreatedDesc l ↔ x ∈ l := by
  induction l with
  | nil => simp [sortByCreatedDesc]
  | cons y ys ih =>
    rw [sortByCreatedDesc]
    simp only [mem_insertDesc, ih, List.mem_cons]

theorem length_insertDesc (a : Item) (l : List Item) :
    (insertDesc a l).length = l.length + 1 := by
  induction l with
  | nil => simp [insertDesc]
  | cons y ys ih =>
    rw [insertDesc]
    split
    · simp
    · simp [ih]

theorem length_sortByCreatedDesc (l : List Item) :
    (sortByCreatedDesc l).length = l.length := by
  induction l with
  | nil => rfl
  | cons y ys ih =>
    rw [sortByCreatedDesc, length_insertDesc, ih, List.length_cons]

theorem mem_paginate {x : Item} {p s : Nat} {l : List Item}
    (h : x ∈ paginate p s l) : x ∈ l := by
  unfold paginate at h
  exact List.drop_subset _ _ (List.take_subset _ _ h)

theorem liab_validation_category (m : Bool) (p : Payload) (vd : VData)
    (h : LiabilitySerializer.run_validation m p = .ok vd) :
    vd.asset_category = some none := by
  unfold LiabilitySerializer.run_validation at h
  cases hn : validateNameField m p.name <;> rw [hn] at h <;>
    cases hv : validateValueField m p.value <;> rw [hv] at h <;>
    simp only [bind, Except.bind] at h <;>
    first
      | exact absurd h (by simp)
      | (simp only [NetWorthItemSerializer.validate, Option.getD] at h
         rw [if_neg (by decide), if_pos trivial, Except.ok.injEq] at h
         rw [← h])

theorem requestCtx_some (u : CustomUser) (g : GroupId) (hg : u.group = some g) :
    requestCtx (some u) = ⟨some u, some g⟩ := by
  simp [requestCtx, GroupFilteringMiddleware.process_request, GroupContext.clear,
    GroupContext.set_current_user, hg]

/-! ## Claim theorems -/

/-- C1. For a request context bound to group `g`, the asset and
liability list endpoints return only items whose group is `g`, and
their `count` counts exactly the current group's items of the requested
type — items of any other group are neither returned nor counted, even
though the handler's query states no explicit group filter. -/
theorem c1_list_scoped_to_group (u : CustomUser) (g : GroupId) (db : DB)
    (page pageSize : Nat) (hg : u.group = some g) :
    (∀ c items, AssetsAPIView.get (some u) db page pageSize = .ok 200 (c, items) →
      (∀ x ∈ items, x.group = g) ∧
      c = (db.filter (fun i => i.item_type == "ASSET" && i.group == g)).length) ∧
    (∀ c items, LiabilitiesAPIView.get (some u) db page pageSize = .ok 200 (c, items) →
      (∀ x ∈ items, x.group = g) ∧
      c = (db.filter (fun i => i.item_type == "LIABILITY" && i.group == g)).length) := by
  have hctx := requestCtx_some u g hg
  constructor <;> intro c items heq <;>
    simp only [AssetsAPIView.get, LiabilitiesAPIView.get, hctx] at heq <;>
    by_cases hperm : u.has_group_permission "read"
  case pos | pos =>
    simp only [GroupContext.has_permission, GroupContext.get_current_user, hperm,
      not_true, if_false, GroupContext.get_current_group, NetWorthItem.objects,
      GroupFilteredManager.get_queryset, ite_true] at heq
    rw [ApiResult.ok.injEq, Prod.mk.injEq] at heq
    obtain ⟨-, hc, hitems⟩ := heq
    constructor
    · intro x hx
      rw [← hitems] at hx
      have hx2 := mem_paginate hx
      rw [mem_sortByCreatedDesc] at hx2
      have hx3 := List.mem_filter.mp hx2
      have hx4 := List.mem_filter.mp hx3.1
      simpa using hx4.2
    · rw [← hc, length_sortByCreatedDesc, List.filter_filter]
  case neg | neg =>
    simp [GroupContext.has_permission, GroupContext.get_current_user, hperm] at heq

/-- C1 witness: a context bound to group 1 over a two-tenant database
lists exactly the group-1 asset and counts no group-2 row. -/
theorem c1_list_scoped_to_group_witness :
    (⟨1, 1, "Cash", ⟨50000, 2⟩, "ASSET", some "SAVINGS", none, 10⟩ : Item).group = 1 ∧
    (1 : Nat) =
      (([⟨1, 1, "Cash", ⟨50000, 2⟩, "ASSET", some "SAVINGS", none, 10⟩,
         ⟨2, 2, "OtherCash", ⟨70000, 2⟩, "ASSET", some "SAVINGS", none, 11⟩] : DB).filter
          (fun i => i.item_type == "ASSET" && i.group == 1)).length := by
  have h := (c1_list_scoped_to_group ⟨some 1, "admin", false⟩ 1
    [⟨1, 1, "Cash", ⟨50000, 2⟩, "ASSET", some "SAVINGS", none, 10⟩,
     ⟨2, 2, "OtherCash", ⟨70000, 2⟩, "ASSET", some "SAVINGS", none, 11⟩]
    1 20 rfl).1 1
    [⟨1, 1, "Cash", ⟨50000, 2⟩, "ASSET", some "SAVINGS", none, 10⟩] (by rfl)
  exact ⟨h.1 _ (by simp), h.2⟩

/-- C2. For a context bound to group `g`, the by-id get, update and
delete operations on an id that only rows of other groups carry behave
exactly as if the row did not exist: `404 NotFound`, no row returned,
and the database left untouched. -/
theorem c2_cross_tenant_not_found (u : CustomUser) (g : GroupId) (tid : Nat)
    (db : DB) (p : Payload) (hg : u.group = some g)
    (hown : ∀ y ∈ db, y.id = tid → ¬ y.group = g) :
    (u.has_group_permission "read" = true →
      AssetDetailAPIView.get (some u) db tid = .notFound ∧
      LiabilityDetailAPIView.get (some u) db tid = .notFound) ∧
    (u.has_group_permission "update" = true →
      AssetDetailAPIView.put (some u) db tid p = (.notFound, db) ∧
      LiabilityDetailAPIView.put (some u) db tid p = (.notFound, db)) ∧
    (u.has_group_permission "delete" = true →
      AssetDetailAPIView.delete (some u) db tid = (.notFound, db) ∧
      LiabilityDetailAPIView.delete (some u) db tid = (.notFound, db)) := by
  have hctx := requestCtx_some u g hg
  have hqs : NetWorthItem.objects ⟨some u, some g⟩ db =
      db.filter (fun i => i.group == g) := rfl
  have hobjA : AssetDetailAPIView.get_object ⟨some u, some g⟩ db tid = none := by
    unfold AssetDetailAPIView.get_object
    rw [hqs, List.find?_eq_none]
    intro x hx
    have hxg : x.group = g := by simpa using (List.mem_filter.mp hx).2
    have hxd : x ∈ db := (List.mem_filter.mp hx).1
    simp only [Bool.and_eq_true, beq_iff_eq, not_and]
    intro hid _
    exact absurd hxg (hown x hxd hid)
  have hobjL : LiabilityDetailAPIView.get_object ⟨some u, some g⟩ db tid = none := by
    unfold LiabilityDetailAPIView.get_object
    rw [hqs, List.find?_eq_none]
    intro x hx
    have hxg : x.group = g := by simpa using (List.mem_filter.mp hx).2
    have hxd : x ∈ db := (List.mem_filter.mp hx).1
    simp only [Bool.and_eq_true, beq_iff_eq, not_and]
    intro hid _
    exact absurd hxg (hown x hxd hid)
  refine ⟨fun hperm => ⟨?_, ?_⟩, fun hperm => ⟨?_, ?_⟩, fun hperm => ⟨?_, ?_⟩⟩ <;>
    simp [AssetDetailAPIView.get, LiabilityDetailAPIView.get,
      AssetDetailAPIView.put, LiabilityDetailAPIView.put,
      AssetDetailAPIView.delete, LiabilityDetailAPIView.delete,
      hctx, GroupContext.has_permission, GroupContext.get_current_user, hperm,
      hobjA, hobjL]

/-- C2 witness: with context bound to group 1 and read/update/delete
permission, asset id 2 — owned by group 2 — yields 404 on get and an
unchanged database on delete. -/
theorem c2_cross_tenant_not_found_witness :
    AssetDetailAPIView.get (some ⟨some 1, "admin", false⟩)
      [⟨2, 2, "OtherCash", ⟨70000, 2⟩, "ASSET", some "SAVINGS", none, 11⟩] 2 =
      .notFound ∧
    AssetDetailAPIView.delete (some ⟨some 1, "admin", false⟩)
      [⟨2, 2, "OtherCash", ⟨70000, 2⟩, "ASSET", some "SAVINGS", none, 11⟩] 2 =
      (.notFound, [⟨2, 2, "OtherCash", ⟨70000, 2⟩, "ASSET", some "SAVINGS", none, 11⟩]) := by
  have h := c2_cross_tenant_not_found ⟨some 1, "admin", false⟩ 1 2
    [⟨2, 2, "OtherCash", ⟨70000, 2⟩, "ASSET", some "SAVINGS", none, 11⟩]
    ⟨none, none, none, none, none, none⟩ rfl (by decide)
  exact ⟨(h.1 rfl).1, (h.2.2 rfl).1⟩

/-- C3. For every user and every permission of the matrix,
`CustomUser.has_group_permission` computes exactly the specified
matrix: system admins get everything; groupless users nothing; role
admin all five, editor read/create/update, viewer read, unknown roles
nothing (stated as agreement with the spec-side `hasPermissionSpec`). -/
theorem c3_permission_matrix (u : CustomUser) (p : Permission) :
    u.has_group_permission p.toName = hasPermissionSpec u p := by
  unfold CustomUser.has_group_permission hasPermissionSpec
  cases hadm : u.is_admin <;> simp
  cases hg : u.group <;> simp [rolePermissions]
  split_ifs <;> cases p <;> simp_all [Permission.toName]

/-- C5. After any request — normal completion or a raised exception —
the middleware leaves the context empty, and a subsequent request on
the same worker with no principal observes no residual user and no
residual group. -/
theorem c5_context_cleared (ctx0 : Ctx) (principal : Option CustomUser)
    (viewRaised : Bool) :
    runRequestLifecycle ctx0 principal viewRaised = Ctx.empty ∧
    GroupContext.get_current_user
      (GroupFilteringMiddleware.process_request
        (runRequestLifecycle ctx0 principal viewRaised) none) = none ∧
    GroupContext.get_current_group
      (GroupFilteringMiddleware.process_request
        (runRequestLifecycle ctx0 principal viewRaised) none) = none := by
  refine ⟨?_, rfl, rfl⟩
  unfold runRequestLifecycle GroupFilteringMiddleware.process_response
    GroupFilteringMiddleware.process_exception GroupContext.clear
  split <;> rfl

/-- C10. With no current group (anonymous request, groupless user, or a
system admin without a group), `GroupFilteredManager.get_queryset`
applies no tenant filter: every row of every group comes back, for any
model with a group field (and for any model without one). -/
theorem c10_no_group_no_filter :
    (∀ (hasGroupField : Bool) (db : DB),
      GroupFilteredManager.get_queryset none hasGroupField db = db) ∧
    (∀ (ctx0 : Ctx) (db : DB),
      NetWorthItem.objects
        (GroupFilteringMiddleware.process_request ctx0 none) db = db) ∧
    (∀ (ctx0 : Ctx) (u : CustomUser) (db : DB),
      NetWorthItem.objects
        (GroupFilteringMiddleware.process_request ctx0
          (some { u with group := none })) db = db) := by
  refine ⟨fun hasGroupField db => rfl, fun ctx0 db => rfl, fun ctx0 u db => rfl⟩

/-- C4. The group stored on a created item comes from the request
context alone: two create requests identical up to a caller-supplied
`group` payload field produce identical outcomes, and every
successfully created item carries the context's group. -/
theorem c4_create_group_from_context (u : CustomUser) (g : GroupId) (db : DB)
    (p : Payload) (gf : Option GroupId) (newId ts : Nat) (hg : u.group = some g) :
    (AssetsAPIView.post (some u) db { p with group := gf } newId ts =
      AssetsAPIView.post (some u) db { p with group := none } newId ts) ∧
    (LiabilitiesAPIView.post (some u) db { p with group := gf } newId ts =
      LiabilitiesAPIView.post (some u) db { p with group := none } newId ts) ∧
    (∀ item db2, AssetsAPIView.post (some u) db p newId ts = (.ok 201 item, db2) →
      item.group = g) ∧
    (∀ item db2, LiabilitiesAPIView.post (some u) db p newId ts = (.ok 201 item, db2) →
      item.group = g) := by
  have hctx := requestCtx_some u g hg
  refine ⟨rfl, rfl, ?_, ?_⟩ <;> intro item db2 heq <;>
    simp only [AssetsAPIView.post, LiabilitiesAPIView.post, hctx] at heq <;>
    by_cases hperm : u.has_group_permission "create" <;>
    simp only [GroupContext.has_permission, GroupContext.get_current_user, hperm,
      not_true, not_false_iff, if_true, if_false, GroupContext.get_current_group] at heq <;>
    first
      | (split at heq
         · simp at heq
         · (split at heq
            · simp at heq
            · rw [Prod.mk.injEq, ApiResult.ok.injEq] at heq
              obtain ⟨⟨-, hi⟩, -⟩ := heq
              rw [← hi]
              rfl))
      | simp at heq

/-- C4 witness: a payload smuggling `group := 42` creates the item in
the context's group 1, identically to the same payload without the
field. -/
theorem c4_create_group_from_context_witness :
    (AssetsAPIView.post (some ⟨some 1, "admin", false⟩) []
      ⟨some "A", some "10.00", some "SAVINGS", none, none, some 42⟩ 9 99 =
     AssetsAPIView.post (some ⟨some 1, "admin", false⟩) []
      ⟨some "A", some "10.00", some "SAVINGS", none, none, none⟩ 9 99) ∧
    (⟨9, 1, "A", ⟨1000, 2⟩, "ASSET", some "SAVINGS", none, 99⟩ : Item).group = 1 := by
  have h := c4_create_group_from_context ⟨some 1, "admin", false⟩ 1 []
    ⟨some "A", some "10.00", some "SAVINGS", none, none, some 42⟩ (some 42) 9 99 rfl
  exact ⟨h.1, h.2.2.1 ⟨9, 1, "A", ⟨1000, 2⟩, "ASSET", some "SAVINGS", none, 99⟩
    [⟨9, 1, "A", ⟨1000, 2⟩, "ASSET", some "SAVINGS", none, 99⟩] (by rfl)⟩

/-- C6. The code contradicts the claim: a partial update of an existing
group-1 `SAVINGS` asset that supplies only a new value `"750.00"` is
rejected with 400 (`Asset category is required for assets.`) and the
row is left unchanged — `AssetSerializer.validate` injects
`item_type='ASSET'` and then demands a category even on a partial
update, so the specified "update succeeds, category preserved"
behavior does not hold. -/
theorem c6_partial_value_update_rejected :
    AssetDetailAPIView.put (some ⟨some 1, "editor", false⟩)
      [⟨1, 1, "Cash", ⟨50000, 2⟩, "ASSET", some "SAVINGS", none, 10⟩] 1
      ⟨none, some "750.00", none, none, none, none⟩ =
    (.badRequest .categoryRequired,
      [⟨1, 1, "Cash", ⟨50000, 2⟩, "ASSET", some "SAVINGS", none, 10⟩]) := by
  rfl

/-- C7 counterexample: a groupless non-admin principal's list request
is denied with the permission-denied body naming the `read` permission,
not a body naming group membership; and a groupless system admin's
by-id request is not rejected at all — it returns another tenant's row. -/
theorem c7_counterexample :
    AssetsAPIView.get (some ⟨none, "viewer", false⟩) [] 1 20 =
      .permissionDenied "read" ∧
    AssetDetailAPIView.get (some ⟨none, "viewer", true⟩)
      [⟨2, 2, "OtherCash", ⟨70000, 2⟩, "ASSET", some "SAVINGS", none, 11⟩] 2 =
      .ok 200 ⟨2, 2, "OtherCash", ⟨70000, 2⟩, "ASSET", some "SAVINGS", none, 11⟩ := by
  exact ⟨rfl, rfl⟩

/-- C7 (amended). For every authenticated principal with no group, the
summary and collection operations are rejected with HTTP 403 before
touching data; the body names group membership only when the principal
is a system admin (who passes the permission gate), and otherwise names
the missing permission; by-id operations are likewise denied for
non-system-admins. -/
theorem c7_groupless_rejected (u : CustomUser) (db : DB) (p : Payload)
    (page ps nid ts tid : Nat) (hg : u.group = none) :
    (AssetsAPIView.get (some u) db page ps).status = 403 ∧
    (LiabilitiesAPIView.get (some u) db page ps).status = 403 ∧
    (NetWorthSummaryAPIView.get (some u) db).status = 403 ∧
    (AssetsAPIView.post (some u) db p nid ts).1.status = 403 ∧
    (AssetsAPIView.post (some u) db p nid ts).2 = db ∧
    (LiabilitiesAPIView.post (some u) db p nid ts).1.status = 403 ∧
    (LiabilitiesAPIView.post (some u) db p nid ts).2 = db ∧
    (AssetsAPIView.get (some u) db page ps =
      if u.is_admin then .groupRequired "User must be assigned to a group"
      else .permissionDenied "read") ∧
    (u.is_admin = false →
      AssetDetailAPIView.get (some u) db tid = .permissionDenied "read" ∧
      AssetDetailAPIView.put (some u) db tid p = (.permissionDenied "update", db) ∧
      AssetDetailAPIView.delete (some u) db tid = (.permissionDenied "delete", db) ∧
      LiabilityDetailAPIView.get (some u) db tid = .permissionDenied "read" ∧
      LiabilityDetailAPIView.put (some u) db tid p = (.permissionDenied "update", db) ∧
      LiabilityDetailAPIView.delete (some u) db tid = (.permissionDenied "delete", db)) := by
  have hctx : requestCtx (some u) = ⟨some u, none⟩ := by
    simp [requestCtx, GroupFilteringMiddleware.process_request, GroupContext.clear,
      GroupContext.set_current_user, hg]
  have hperm : ∀ s : String, u.has_group_permission s = u.is_admin := by
    intro s
    unfold CustomUser.has_group_permission
    cases hadm : u.is_admin <;> simp [hg]
  cases hadm : u.is_admin <;>
    simp [AssetsAPIView.get, LiabilitiesAPIView.get, NetWorthSummaryAPIView.get,
      AssetsAPIView.post, LiabilitiesAPIView.post,
      AssetDetailAPIView.get, AssetDetailAPIView.put, AssetDetailAPIView.delete,
      LiabilityDetailAPIView.get, LiabilityDetailAPIView.put, LiabilityDetailAPIView.delete,
      hctx, GroupContext.has_permission, GroupContext.get_current_user,
      GroupContext.get_current_group, hperm, hadm, ApiResult.status]

/-- C7 witness: a groupless viewer's list request has status 403 and
the permission-denied body; their by-id get is also denied. -/
theorem c7_groupless_rejected_witness :
    (AssetsAPIView.get (some ⟨none, "viewer", false⟩) [] 1 20).status = 403 ∧
    AssetDetailAPIView.get (some ⟨none, "viewer", false⟩) [] 5 =
      .permissionDenied "read" := by
  have h := c7_groupless_rejected ⟨none, "viewer", false⟩ []
    ⟨none, none, none, none, none, none⟩ 1 20 9 99 5 rfl
  exact ⟨h.1, (h.2.2.2.2.2.2.2.2 rfl).1⟩

/-- C8 counterexample: a liability create whose payload supplies
`asset_category = "SAVINGS"` is not rejected — it succeeds with 201 and
stores the liability with no category, because `LiabilitySerializer`
declares no `asset_category` field. -/
theorem c8_counterexample :
    LiabilitiesAPIView.post (some ⟨some 1, "admin", false⟩) []
      ⟨some "Loan", some "10.00", some "SAVINGS", none, none, none⟩ 9 99 =
    (.ok 201 ⟨9, 1, "Loan", ⟨1000, 2⟩, "LIABILITY", none, none, 99⟩,
     [⟨9, 1, "Loan", ⟨1000, 2⟩, "LIABILITY", none, none, 99⟩]) := by
  rfl

/-- C8 (amended). A supplied `asset_category` in a liability create or
update payload is silently ignored rather than rejected: the outcome is
identical to the same request without the field, and any item a
liability create or update produces carries no category. Only a
non-null category actually set on a `LIABILITY` model instance is
rejected, by `NetWorthItem.clean`. -/
theorem c8_liability_category_ignored (u : CustomUser) (g : GroupId) (db : DB)
    (p : Payload) (cat : String) (nid ts tid : Nat) (hg : u.group = some g) :
    (LiabilitiesAPIView.post (some u) db { p with asset_category := some cat } nid ts =
      LiabilitiesAPIView.post (some u) db { p with asset_category := none } nid ts) ∧
    (LiabilityDetailAPIView.put (some u) db tid { p with asset_category := some cat } =
      LiabilityDetailAPIView.put (some u) db tid { p with asset_category := none }) ∧
    (∀ item db2, LiabilitiesAPIView.post (some u) db p nid ts = (.ok 201 item, db2) →
      item.asset_category = none) ∧
    (∀ item db2, LiabilityDetailAPIView.put (some u) db tid p = (.ok 200 item, db2) →
      item.asset_category = none) ∧
    (∀ it : Item, it.item_type = "LIABILITY" → ∀ c : String,
      NetWorthItem.clean { it with asset_category := some c } =
        .error "Liabilities cannot have an asset category.") := by
  have hctx := requestCtx_some u g hg
  refine ⟨rfl, rfl, ?_, ?_, ?_⟩
  · intro item db2 heq
    cases hvd : LiabilitySerializer.run_validation false p with
    | error e =>
      simp [LiabilitiesAPIView.post, hctx, hvd, GroupContext.has_permission,
        GroupContext.get_current_user, GroupContext.get_current_group] at heq
      by_cases hperm : u.has_group_permission "create" <;> simp [hperm] at heq
    | ok vd =>
      simp only [LiabilitiesAPIView.post, hctx, hvd, GroupContext.has_permission,
        GroupContext.get_current_user, GroupContext.get_current_group] at heq
      by_cases hperm : u.has_group_permission "create" <;>
        simp only [hperm, not_true, not_false_iff, if_true, if_false] at heq
      · split at heq
        · simp at heq
        · rw [Prod.mk.injEq, ApiResult.ok.injEq] at heq
          obtain ⟨⟨-, hi⟩, -⟩ := heq
          rw [← hi]
          simp [buildItem, liab_validation_category _ _ _ hvd]
      · simp at heq
  · intro item db2 heq
    cases hvd : LiabilitySerializer.run_validation true p with
    | error e =>
      simp [LiabilityDetailAPIView.put, hctx, hvd, GroupContext.has_permission,
        GroupContext.get_current_user] at heq
      by_cases hperm : u.has_group_permission "update" <;> simp [hperm] at heq
      split at heq <;> simp at heq
    | ok vd =>
      simp only [LiabilityDetailAPIView.put, hctx, hvd, GroupContext.has_permission,
        GroupContext.get_current_user] at heq
      by_cases hperm : u.has_group_permission "update" <;>
        simp only [hperm, not_true, not_false_iff, if_true, if_false] at heq
      · split at heq
        · simp at heq
        · split at heq
          · simp at heq
          · rw [Prod.mk.injEq, ApiResult.ok.injEq] at heq
            obtain ⟨⟨-, hi⟩, -⟩ := heq
            rw [← hi]
            simp [ModelSerializer.update_item, liab_validation_category _ _ _ hvd]
      · simp at heq
  · intro it hit c
    simp [NetWorthItem.clean, hit]

/-- C8 witness: at a concrete admin context, supplying
`asset_category = "SAVINGS"` on a liability create changes nothing
relative to omitting it, and the created row has no category. -/
theorem c8_liability_category_ignored_witness :
    (LiabilitiesAPIView.post (some ⟨some 1, "admin", false⟩) []
      ⟨some "Loan", some "10.00", some "SAVINGS", none, none, none⟩ 9 99 =
     LiabilitiesAPIView.post (some ⟨some 1, "admin", false⟩) []
      ⟨some "Loan", some "10.00", none, none, none, none⟩ 9 99) ∧
    (⟨9, 1, "Loan", ⟨1000, 2⟩, "LIABILITY", none, none, 99⟩ : Item).asset_category = none := by
  have h := c8_liability_category_ignored ⟨some 1, "admin", false⟩ 1 []
    ⟨some "Loan", some "10.00", some "SAVINGS", none, none, none⟩ "SAVINGS" 9 99 0 rfl
  refine ⟨?_, h.2.2.1 ⟨9, 1, "Loan", ⟨1000, 2⟩, "LIABILITY", none, none, 99⟩
    [⟨9, 1, "Loan", ⟨1000, 2⟩, "LIABILITY", none, none, 99⟩] (by rfl)⟩
  have h1 := h.1
  simpa using h1

/-- C9 counterexample: the serializer's value validation rejects the
decimal `0.00` (mantissa 0, two decimal places) with
`Value must be positive.` — zero is not accepted. -/
theorem c9_counterexample :
    parseDecimal "0.00" = some ⟨0, 2⟩ ∧
    NetWorthItemSerializer.validate_value ⟨0, 2⟩ = .error .valueNotPositive ∧
    validateValueField false (some "0.00") = .error .valueNotPositive := by
  exact ⟨rfl, rfl, rfl⟩

/-- C9 (amended). The serializer's `validate_value` accepts exactly the
strictly positive decimals, rejecting zero and negative values with
`Value must be positive.`; the legacy validators'
`validate_value_format` accepts every non-negative decimal (including
`0` and `0.00`), rejects strictly negative values with
`Value must be positive`, and rejects non-decimal input with
`Invalid value format`. -/
theorem c9_value_validation :
    (∀ d : Dec, NetWorthItemSerializer.validate_value d =
      (if d.mant ≤ 0 then .error .valueNotPositive else .ok d)) ∧
    (∀ s : String, parseDecimal s = none →
      AssetsValidator.validate_value_format (some s) = .invalidFormat) ∧
    (∀ s : String, ∀ d : Dec, parseDecimal s = some d →
      AssetsValidator.validate_value_format (some s) =
        (if d.mant < 0 then .negativeValue else .stored d)) := by
  refine ⟨fun d => ?_, fun s h => ?_, fun s d h => ?_⟩
  · simp [NetWorthItemSerializer.validate_value, Dec.leZero]
  · simp [AssetsValidator.validate_value_format, h]
  · simp [AssetsValidator.validate_value_format, h, Dec.ltZero]

/-- C9 witness: the legacy check accepts `0.00`, rejects `-5.00` as
negative and `abc` as malformed. -/
theorem c9_value_validation_witness :
    AssetsValidator.validate_value_format (some "0.00") = .stored ⟨0, 2⟩ ∧
    AssetsValidator.validate_value_format (some "-5.00") = .negativeValue ∧
    AssetsValidator.validate_value_format (some "abc") = .invalidFormat := by
  refine ⟨?_, ?_, c9_value_validation.2.1 "abc" (by rfl)⟩
  · have h := c9_value_validation.2.2 "0.00" ⟨0, 2⟩ (by rfl)
    rw [if_neg (by decide)] at h
    exact h
  · have h := c9_value_validation.2.2 "-5.00" ⟨-500, 2⟩ (by rfl)
    rw [if_pos (by decide)] at h
    exact h

end WealthWise
